import Mathlib

/-!
Shallow embedding of `src/HTJ2KEncoder.hpp` (kakadujs): the HTJ2K encoding
pipeline.  The Kakadu codec engine itself (`kdu_codestream`,
`kdu_stripe_compressor`, `kdu_thread_env`) is an external collaborator; it is
modelled as an abstract deterministic function from the encoder's observable
inputs (geometry parameters, parsed parameter strings, stripe heights, source
buffer) to the sequence of byte runs it writes into the compressed target.
Every interaction of `encode()` with the engine is recorded in a trace.

Machine integers are modelled as `Nat` (for `size_t` fields) and `Int` (for
`int` fields); byte buffers are `List Nat`; the `float quantizationStep_`
field is modelled as `Rat` (it is only ever stored, never used in arithmetic
by the active code, and its default -1.0 is exactly representable).
-/

/-- Image geometry and sample format.  Modelled from the spec: `FrameInfo.hpp`
is not among the given sources; the spec lists its attributes as width,
height, componentCount, bitsPerSample, isSigned. -/
structure FrameInfo where
  width : Nat
  height : Nat
  componentCount : Nat
  bitsPerSample : Nat
  isSigned : Bool
  deriving DecidableEq

/-- Code-block dimensions.  Modelled from the spec: `Size.hpp` is not among
the given sources; the spec describes it as a (width, height) pair and the
code prints both fields with the `int` format `%d`. -/
structure Size where
  width : Int
  height : Int
  deriving DecidableEq

/-- The byte-sink adapter `kdu_buffer_target` of `HTJ2KEncoder.hpp`: it owns
(a reference to) a growable byte buffer.  Its constructor does
`encoded_.resize(0)`. -/
structure kdu_buffer_target where
  encoded_ : List Nat
  deriving DecidableEq

/-- The constructor `kdu_buffer_target(encoded)`: resizes the buffer to 0. -/
def kdu_buffer_target.create : kdu_buffer_target := ⟨[]⟩

/-- `kdu_buffer_target::write(buf, num_bytes)`: `resize(size + num_bytes)`
then `memcpy` at the old end, returning `true`.  The byte run is modelled as
a list (so `num_bytes` is its length, necessarily ≥ 0). -/
def kdu_buffer_target.write (t : kdu_buffer_target) (buf : List Nat) :
    kdu_buffer_target × Bool :=
  (⟨t.encoded_ ++ buf⟩, true)

/-- A whole sequence of engine writes, folded through `write`. -/
def kdu_buffer_target.writeAll (t : kdu_buffer_target) (runs : List (List Nat)) :
    kdu_buffer_target :=
  runs.foldl (fun acc r => (acc.write r).1) t

/-- One parameter assignment handed to `codestream.access_siz()->parse_string`
in `encode()`.  Each constructor corresponds to one literal `parse_string`
call site of the source. -/
inductive Param where
  | Cmodes_HT : Param
  | Creversible : Bool → Param
  | Qfactor : Int → Param
  | Corder : String → Param
  | Clevels : Nat → Param
  | Cblk : Int → Int → Param
  deriving DecidableEq

/-- The exact string the source passes to `parse_string` for each
assignment (`snprintf` formatting of the numeric ones). -/
def Param.toStr : Param → String
  | .Cmodes_HT => "Cmodes=HT"
  | .Creversible true => "Creversible=yes"
  | .Creversible false => "Creversible=no"
  | .Qfactor q => "Qfactor=" ++ toString q
  | .Corder ord => "Corder=" ++ ord
  | .Clevels n => "Clevels=" ++ toString n
  | .Cblk w h => "Cblk=" ++ "\x7b" ++ toString w ++ "," ++ toString h ++ "\x7d"

/-- The `switch (progressionOrder_)` of `encode()`: cases 0–4 parse a
`Corder` assignment, any other value parses nothing. -/
def corderParam (p : Nat) : Option Param :=
  match p with
  | 0 => some (Param.Corder ("LRCP"))
  | 1 => some (Param.Corder ("RLCP"))
  | 2 => some (Param.Corder ("RPCL"))
  | 3 => some (Param.Corder ("PCRL"))
  | 4 => some (Param.Corder ("CPRL"))
  | _ => none

/-- The `SIZ` geometry values `encode()` sets on `siz_params` before
creating the codestream (`Scomponents`, `Sdims`, `Sprecision`, `Ssigned`). -/
structure SizParams where
  scomponents : Nat
  sdimsHeight : Nat
  sdimsWidth : Nat
  sprecision : Nat
  ssigned : Bool
  deriving DecidableEq

/-- Encoder state: the private data members of `HTJ2KEncoder`.  The
non-owning source pointer `buf_` is `none` when null, otherwise the byte
sequence it points to. -/
structure HTJ2KEncoder where
  decoded_ : List Nat
  encoded_ : List Nat
  frameInfo_ : FrameInfo
  decompositions_ : Nat
  lossless_ : Bool
  quantizationStep_ : Rat
  progressionOrder_ : Nat
  blockDimensions_ : Size
  htEnabled_ : Bool
  qfactor : Int
  buf_ : Option (List Nat)
  size_ : Nat
  deriving DecidableEq

/-- The constructor `HTJ2KEncoder()` with its member-initializer list;
`decoded_`, `encoded_` and `frameInfo_` are default-initialized (empty
vectors; a value-initialized `FrameInfo`). -/
def HTJ2KEncoder.init : HTJ2KEncoder :=
  { decoded_ := []
    encoded_ := []
    frameInfo_ := ⟨0, 0, 0, 0, false⟩
    decompositions_ := 5
    lossless_ := true
    quantizationStep_ := -1
    progressionOrder_ := 2
    blockDimensions_ := ⟨64, 64⟩
    htEnabled_ := true
    qfactor := 85
    buf_ := none
    size_ := 0 }

/-- `setDecompositions(decompositions)`. -/
def HTJ2KEncoder.setDecompositions (e : HTJ2KEncoder) (d : Nat) : HTJ2KEncoder :=
  { e with decompositions_ := d }

/-- `setQuality(lossless, quantizationStep)`: stores both fields. -/
def HTJ2KEncoder.setQuality (e : HTJ2KEncoder) (lossless : Bool)
    (quantizationStep : Rat) : HTJ2KEncoder :=
  { e with lossless_ := lossless, quantizationStep_ := quantizationStep }

/-- `setQfactor(qf)`: clamps below at 0, then above at 100, then stores. -/
def HTJ2KEncoder.setQfactor (e : HTJ2KEncoder) (qf : Int) : HTJ2KEncoder :=
  let qf1 := if qf < 0 then 0 else qf
  let qf2 := if qf1 > 100 then 100 else qf1
  { e with qfactor := qf2 }

/-- `setProgressionOrder(progressionOrder)`. -/
def HTJ2KEncoder.setProgressionOrder (e : HTJ2KEncoder) (p : Nat) : HTJ2KEncoder :=
  { e with progressionOrder_ := p }

/-- `setBlockDimensions(blockDimensions)`. -/
def HTJ2KEncoder.setBlockDimensions (e : HTJ2KEncoder) (b : Size) : HTJ2KEncoder :=
  { e with blockDimensions_ := b }

/-- `setHTEnabled(htEnabled)`. -/
def HTJ2KEncoder.setHTEnabled (e : HTJ2KEncoder) (ht : Bool) : HTJ2KEncoder :=
  { e with htEnabled_ := ht }

/-- `setSourceImage(buf, size)`: stores the borrowed pointer and length. -/
def HTJ2KEncoder.setSourceImage (e : HTJ2KEncoder) (buf : List Nat) (size : Nat) :
    HTJ2KEncoder :=
  { e with buf_ := some buf, size_ := size }

/-- `getDecodedBytes(frameInfo)`: overwrites the stored `frameInfo_` and
returns (a reference to) the `decoded_` buffer, which it does not resize. -/
def HTJ2KEncoder.getDecodedBytes (e : HTJ2KEncoder) (frameInfo : FrameInfo) :
    HTJ2KEncoder × List Nat :=
  ({ e with frameInfo_ := frameInfo }, e.decoded_)

/-- The ordered list of `parse_string` assignments `encode()` performs,
exactly as in the source: optional `Cmodes=HT`; `Creversible=yes`, or
`Creversible=no` immediately followed by `Qfactor=<qfactor>`; the
`progressionOrder_` switch; then `Clevels` and `Cblk`. -/
def paramList (e : HTJ2KEncoder) : List Param :=
  (if e.htEnabled_ then [Param.Cmodes_HT] else []) ++
  (if e.lossless_ then [Param.Creversible true]
   else [Param.Creversible false, Param.Qfactor e.qfactor]) ++
  (corderParam e.progressionOrder_).toList ++
  [Param.Clevels e.decompositions_,
   Param.Cblk e.blockDimensions_.width e.blockDimensions_.height]

/-- The exact strings passed to `parse_string`, in order. -/
def paramStrings (e : HTJ2KEncoder) : List String :=
  (paramList e).map Param.toStr

/-- The `SIZ` values `encode()` derives from the stored `frameInfo_`. -/
def sizOf (fi : FrameInfo) : SizParams :=
  ⟨fi.componentCount, fi.height, fi.width, fi.bitsPerSample, fi.isSigned⟩

/-- The local array `int stripe_heights[3] = {h, h, h}` of `encode()`, with
`h = frameInfo_.height`: it has exactly three entries regardless of
`componentCount`. -/
def stripe_heights (h : Nat) : List Int :=
  [(h : Int), (h : Int), (h : Int)]

/-- The heights `push_stripe` reads for a frame with `c` components: entry
`i` of the 3-element heights array for each `i < c`; `none` models the
out-of-bounds read that happens when `c` exceeds the array length. -/
def heightsReadByEngine (heights : List Int) (c : Nat) : List (Option Int) :=
  (List.range c).map fun i => heights.get? i

/-- The property the stripe push is claimed to have: every one of the
frame's `componentCount` components is pushed with the image's full
height. -/
def fullHeightForAllComponents (fi : FrameInfo) (heights : List Int) : Prop :=
  ∀ i ∈ List.range fi.componentCount, heights.get? i = some (fi.height : Int)

instance (fi : FrameInfo) (heights : List Int) :
    Decidable (fullHeightForAllComponents fi heights) := by
  unfold fullHeightForAllComponents; infer_instance

/-- One observable interaction of `encode()` with the codec engine, in
source order. -/
inductive EngineEvent where
  | parseString : String → EngineEvent
  | finalizeAll : EngineEvent
  | createEnv : EngineEvent
  | addThread : EngineEvent
  | startCompressor : EngineEvent
  | pushStripe : Option (List Nat) → List Int → EngineEvent
  | finishCompressor : EngineEvent
  | destroyCodestream : EngineEvent
  | closeTarget : EngineEvent
  deriving DecidableEq

/-- Thread-context events and the compression start, for stating the fixed
parallelism of `encode()`. -/
def EngineEvent.isThreadEvent : EngineEvent → Bool
  | .createEnv => true
  | .addThread => true
  | .startCompressor => true
  | _ => false

/-- Stripe-push events. -/
def EngineEvent.isPush : EngineEvent → Bool
  | .pushStripe _ _ => true
  | _ => false

/-- The opaque codec engine: a deterministic map from everything `encode()`
hands it (`SIZ` geometry, parsed parameter strings, the stripe-heights
array, the pushed source pointer) to the byte runs it writes into the
compressed target. -/
structure Engine where
  run : SizParams → List String → List Int → Option (List Nat) → List (List Nat)

/-- What `encode()` did: the `SIZ` values it set and the ordered engine
interactions. -/
structure EncodeTrace where
  siz : SizParams
  events : List EngineEvent
  deriving DecidableEq

/-- `encode()`: builds `siz_params` from `frameInfo_`, constructs a
`kdu_buffer_target` over `encoded_` (resizing it to 0), creates the
codestream, parses the translated parameter strings, finalizes, creates one
thread env with two added threads, starts the stripe compressor, pushes the
single full-image stripe from `buf_` with the 3-entry heights array,
finishes, destroys the codestream and closes the target.  The engine's
writes land in `encoded_` through the target. -/
def HTJ2KEncoder.encode (e : HTJ2KEncoder) (engine : Engine) :
    HTJ2KEncoder × EncodeTrace :=
  let siz := sizOf e.frameInfo_
  let params := paramStrings e
  let heights := stripe_heights e.frameInfo_.height
  let runs := engine.run siz params heights e.buf_
  let target := kdu_buffer_target.create.writeAll runs
  ({ e with encoded_ := target.encoded_ },
   { siz := siz
     events :=
       params.map EngineEvent.parseString ++
       [EngineEvent.finalizeAll, EngineEvent.createEnv, EngineEvent.addThread,
        EngineEvent.addThread, EngineEvent.startCompressor,
        EngineEvent.pushStripe e.buf_ heights, EngineEvent.finishCompressor,
        EngineEvent.destroyCodestream, EngineEvent.closeTarget] })

/-- One public operation on an encoder, as a step relation: the setters, the
decoded-buffer accessor and `encode()` (over an arbitrary engine). -/
inductive Step : HTJ2KEncoder → HTJ2KEncoder → Prop where
  | setDecompositions (e : HTJ2KEncoder) (d : Nat) : Step e (e.setDecompositions d)
  | setQuality (e : HTJ2KEncoder) (b : Bool) (q : Rat) : Step e (e.setQuality b q)
  | setQfactor (e : HTJ2KEncoder) (q : Int) : Step e (e.setQfactor q)
  | setProgressionOrder (e : HTJ2KEncoder) (p : Nat) : Step e (e.setProgressionOrder p)
  | setBlockDimensions (e : HTJ2KEncoder) (b : Size) : Step e (e.setBlockDimensions b)
  | setHTEnabled (e : HTJ2KEncoder) (b : Bool) : Step e (e.setHTEnabled b)
  | setSourceImage (e : HTJ2KEncoder) (buf : List Nat) (sz : Nat) :
      Step e (e.setSourceImage buf sz)
  | getDecodedBytes (e : HTJ2KEncoder) (fi : FrameInfo) :
      Step e (e.getDecodedBytes fi).1
  | encode (e : HTJ2KEncoder) (engine : Engine) : Step e (e.encode engine).1

/-- States reachable from a freshly constructed encoder by public
operations. -/
def Reachable (s : HTJ2KEncoder) : Prop :=
  Relation.ReflTransGen Step HTJ2KEncoder.init s

/-- A concrete two-run engine used for witnesses: it always writes the SOC
marker bytes and then two more bytes. -/
def socEngine : Engine :=
  ⟨fun _ _ _ _ => [[255, 79], [255, 81]]⟩

/-- The order code carried by a `Corder` assignment, `none` for any other
assignment. -/
def Param.corderArg : Param → Option String
  | .Corder s => some s
  | _ => none

/-- Whether an assignment is a `Qfactor` assignment. -/
def Param.isQfactorAssign : Param → Bool
  | .Qfactor _ => true
  | _ => false

/-- A freshly constructed encoder configured (via the stored frame info)
for a 16×16, 4-component, 8-bit unsigned frame. -/
def fourComponentEncoder : HTJ2KEncoder :=
  { HTJ2KEncoder.init with frameInfo_ := ⟨16, 16, 4, 8, false⟩ }

/-- A freshly constructed encoder configured for a 16×16, 3-component,
8-bit unsigned frame. -/
def threeComponentEncoder : HTJ2KEncoder :=
  { HTJ2KEncoder.init with frameInfo_ := ⟨16, 16, 3, 8, false⟩ }

/-- The buffer after a sequence of writes is the old contents followed by
the concatenation of the written runs. -/
theorem writeAll_encoded (t : kdu_buffer_target) (runs : List (List Nat)) :
    (t.writeAll runs).encoded_ = t.encoded_ ++ runs.flatten := by
  induction runs generalizing t with
  | nil => simp [kdu_buffer_target.writeAll]
  | cons r rs ih =>
    show ((t.write r).1.writeAll rs).encoded_ = _
    rw [ih]
    simp [kdu_buffer_target.write, List.append_assoc]

/-- Parameter-parsing events never satisfy a predicate that is false on
`parseString`. -/
theorem filter_map_parseString (f : EngineEvent → Bool)
    (h : ∀ s, f (EngineEvent.parseString s) = false) (l : List String) :
    (l.map EngineEvent.parseString).filter f = [] := by
  induction l with
  | nil => rfl
  | cons s l ih => simp [List.filter_cons, h, ih]

/-- Every `encode()` performs exactly one stripe push: the stored source
pointer with the 3-entry full-height array. -/
theorem encode_push_events (e : HTJ2KEncoder) (engine : Engine) :
    ((e.encode engine).2).events.filter EngineEvent.isPush =
      [EngineEvent.pushStripe e.buf_ (stripe_heights e.frameInfo_.height)] := by
  show ((paramStrings e).map EngineEvent.parseString ++ _).filter _ = _
  rw [List.filter_append, filter_map_parseString _ (fun s => rfl)]
  rfl

/-- C3: `setQfactor(q)` stores exactly `max(0, min(100, q))`, and in every
reachable encoder state the stored `qfactor` lies in [0, 100]. -/
theorem setQfactor_clamps_and_invariant (e : HTJ2KEncoder) (q : Int)
    (s : HTJ2KEncoder) (hs : Reachable s) :
    (e.setQfactor q).qfactor = max 0 (min 100 q) ∧
    0 ≤ s.qfactor ∧ s.qfactor ≤ 100 := by
  constructor
  · simp only [HTJ2KEncoder.setQfactor]
    split <;> split <;> omega
  · induction hs with
    | refl => exact ⟨by decide, by decide⟩
    | tail _ st ih =>
      cases st with
      | setQfactor q =>
        simp only [HTJ2KEncoder.setQfactor]
        split <;> split <;> omega
      | setDecompositions d => exact ih
      | setQuality b qs => exact ih
      | setProgressionOrder p => exact ih
      | setBlockDimensions b => exact ih
      | setHTEnabled b => exact ih
      | setSourceImage buf sz => exact ih
      | getDecodedBytes fi => exact ih
      | encode engine => exact ih

/-- C3 witness: the theorem applied at the initial state with `q = 150`. -/
theorem setQfactor_clamps_and_invariant_witness :
    Reachable HTJ2KEncoder.init ∧
    ((HTJ2KEncoder.init.setQfactor 150).qfactor = max 0 (min 100 150) ∧
     0 ≤ HTJ2KEncoder.init.qfactor ∧ HTJ2KEncoder.init.qfactor ≤ 100) :=
  ⟨Relation.ReflTransGen.refl,
   setQfactor_clamps_and_invariant HTJ2KEncoder.init 150 HTJ2KEncoder.init
     Relation.ReflTransGen.refl⟩

/-- C4: the `Corder` assignments among the translated parameters are exactly
one with the documented mapping for progression orders 0–4 (0=LRCP, 1=RLCP,
2=RPCL, 3=PCRL, 4=CPRL), and none at all for any other stored value. -/
theorem corder_mapping (e : HTJ2KEncoder) :
    (paramList e).filterMap Param.corderArg =
      (if e.progressionOrder_ = 0 then ["LRCP"]
       else if e.progressionOrder_ = 1 then ["RLCP"]
       else if e.progressionOrder_ = 2 then ["RPCL"]
       else if e.progressionOrder_ = 3 then ["PCRL"]
       else if e.progressionOrder_ = 4 then ["CPRL"]
       else []) := by
  obtain ⟨dec, enc, fi, d, l, qs, p, bd, ht, qf, b, sz⟩ := e
  cases l <;> cases ht <;> rcases p with _ | _ | _ | _ | _ | p <;> rfl

/-- C5: if the stored lossless flag is true the translation emits
`Creversible=yes` and no `Qfactor` assignment; otherwise it emits
`Creversible=no` immediately followed by a `Qfactor` assignment carrying the
stored qfactor value. -/
theorem quality_param_selection (e : HTJ2KEncoder) :
    if e.lossless_ then
      Param.Creversible true ∈ paramList e ∧
      (paramList e).all (fun x => !(Param.isQfactorAssign x)) = true
    else
      [Param.Creversible false, Param.Qfactor e.qfactor] <:+: paramList e := by
  obtain ⟨dec, enc, fi, d, l, qs, p, bd, ht, qf, b, sz⟩ := e
  cases l with
  | true =>
    simp only [if_pos]
    constructor
    · cases ht <;> simp [paramList]
    · cases ht <;>
        rcases p with _ | _ | _ | _ | _ | p <;>
          simp [paramList, corderParam, Param.isQfactorAssign]
  | false =>
    simp only [Bool.false_eq_true, if_neg]
    cases ht with
    | true =>
      refine ⟨[Param.Cmodes_HT],
        (corderParam p).toList ++ [Param.Clevels d, Param.Cblk bd.width bd.height], ?_⟩
      simp [paramList]
    | false =>
      refine ⟨[],
        (corderParam p).toList ++ [Param.Clevels d, Param.Cblk bd.width bd.height], ?_⟩
      simp [paramList]

/-- C6: the encoded output and the whole engine interaction do not depend on
the `quantizationStep` passed to `setQuality`: with the same lossless flag
and otherwise identical state, the translated parameters, the trace and the
encoded buffer coincide. -/
theorem encode_ignores_quantizationStep (e : HTJ2KEncoder) (engine : Engine)
    (b : Bool) (q1 q2 : Rat) :
    paramStrings (e.setQuality b q1) = paramStrings (e.setQuality b q2) ∧
    ((e.setQuality b q1).encode engine).2 = ((e.setQuality b q2).encode engine).2 ∧
    (((e.setQuality b q1).encode engine).1).encoded_ =
      (((e.setQuality b q2).encode engine).1).encoded_ :=
  ⟨rfl, rfl, rfl⟩

/-- C7: `write` appends exactly the given bytes in order and returns
success, a zero-length write leaves the target unchanged, and after any
sequence of writes the buffer is the concatenation of all written runs in
call order. -/
theorem buffer_write_appends (t : kdu_buffer_target) (buf : List Nat)
    (runs : List (List Nat)) :
    (t.write buf).1.encoded_ = t.encoded_ ++ buf ∧
    (t.write buf).2 = true ∧
    (t.write []).1 = t ∧
    (t.writeAll runs).encoded_ = t.encoded_ ++ runs.flatten := by
  refine ⟨rfl, rfl, ?_, writeAll_encoded t runs⟩
  show (⟨t.encoded_ ++ []⟩ : kdu_buffer_target) = t
  rw [List.append_nil]

/-- C8: every `encode()` creates exactly one worker thread context, adds
exactly two worker threads to it, and does both before starting the
compressor, whatever the encoder state. -/
theorem encode_thread_context_fixed (e : HTJ2KEncoder) (engine : Engine) :
    ((e.encode engine).2).events.filter EngineEvent.isThreadEvent =
      [EngineEvent.createEnv, EngineEvent.addThread, EngineEvent.addThread,
       EngineEvent.startCompressor] := by
  show ((paramStrings e).map EngineEvent.parseString ++ _).filter _ = _
  rw [List.filter_append, filter_map_parseString _ (fun s => rfl)]
  rfl

/-- C9: the freshly constructed encoder holds the documented defaults, so an
unconfigured `encode()` translates to a lossless, HT-enabled, RPCL, 5-level,
64×64-block parameter set. -/
theorem encoder_defaults :
    HTJ2KEncoder.init.decompositions_ = 5 ∧
    HTJ2KEncoder.init.lossless_ = true ∧
    HTJ2KEncoder.init.quantizationStep_ = -1 ∧
    HTJ2KEncoder.init.progressionOrder_ = 2 ∧
    HTJ2KEncoder.init.blockDimensions_ = ⟨64, 64⟩ ∧
    HTJ2KEncoder.init.htEnabled_ = true ∧
    HTJ2KEncoder.init.qfactor = 85 ∧
    HTJ2KEncoder.init.buf_ = none ∧
    HTJ2KEncoder.init.size_ = 0 ∧
    paramStrings HTJ2KEncoder.init =
      ["Cmodes=HT", "Creversible=yes", "Corder=RPCL", "Clevels=5",
       "Cblk=\x7b64,64\x7d"] :=
  ⟨rfl, rfl, rfl, rfl, rfl, rfl, rfl, rfl, rfl, rfl⟩

/-- C1 counterexample: with a 4-component frame, `encode()` still pushes the
3-entry heights array, so the claim that every one of the frame's
`componentCount` components is pushed with the full image height fails (the
fourth component's height is read past the end of the array). -/
theorem push_full_height_counterexample :
    ((fourComponentEncoder.encode socEngine).2).events.filter EngineEvent.isPush =
      [EngineEvent.pushStripe none (stripe_heights 16)] ∧
    ¬ fullHeightForAllComponents fourComponentEncoder.frameInfo_
        (stripe_heights fourComponentEncoder.frameInfo_.height) := by
  constructor
  · rfl
  · decide

/-- C1 (amended): every `encode()` pushes the full image exactly once, as a
single stripe whose height is the image's full height for every component,
provided the frame has at most 3 components (the heights array the source
builds has exactly 3 entries). -/
theorem encode_single_full_height_stripe (e : HTJ2KEncoder) (engine : Engine)
    (hc : e.frameInfo_.componentCount ≤ 3) :
    ((e.encode engine).2).events.filter EngineEvent.isPush =
      [EngineEvent.pushStripe e.buf_ (stripe_heights e.frameInfo_.height)] ∧
    fullHeightForAllComponents e.frameInfo_ (stripe_heights e.frameInfo_.height) := by
  refine ⟨encode_push_events e engine, ?_⟩
  intro i hi
  simp only [List.mem_range] at hi
  have h3 : i < 3 := lt_of_lt_of_le hi hc
  interval_cases i <;> rfl

/-- C1 witness: the amended theorem at a 3-component frame. -/
theorem encode_single_full_height_stripe_witness :
    threeComponentEncoder.frameInfo_.componentCount ≤ 3 ∧
    (((threeComponentEncoder.encode socEngine).2).events.filter EngineEvent.isPush =
      [EngineEvent.pushStripe none (stripe_heights 16)] ∧
     fullHeightForAllComponents threeComponentEncoder.frameInfo_
       (stripe_heights 16)) :=
  ⟨by decide,
   encode_single_full_height_stripe threeComponentEncoder socEngine (by decide)⟩

/-- C2 counterexample: the state reached by one successful `encode()` is a
reachable state in which the next `encode()` may be invoked, and its encoded
buffer is not empty — the buffer is only reset inside `encode()` (by the
`kdu_buffer_target` constructor), not before the call. -/
theorem encoded_nonempty_before_second_encode :
    Reachable ((HTJ2KEncoder.init.encode socEngine).1) ∧
    ((HTJ2KEncoder.init.encode socEngine).1).encoded_ = [255, 79, 255, 81] ∧
    ((HTJ2KEncoder.init.encode socEngine).1).encoded_ ≠ [] :=
  ⟨Relation.ReflTransGen.single (Step.encode HTJ2KEncoder.init socEngine),
   rfl, by decide⟩

/-- C2 (amended): `encode()` resets the encoded buffer at its start —
whatever stale bytes it held, the buffer afterwards is exactly the
concatenation of the byte runs the engine wrote for this encode, so a
successful encode (one whose engine writes at least one byte of codestream)
leaves it non-empty. -/
theorem encode_resets_and_fills_buffer (e : HTJ2KEncoder) (stale : List Nat)
    (engine : Engine)
    (h : (engine.run (sizOf e.frameInfo_) (paramStrings e)
           (stripe_heights e.frameInfo_.height) e.buf_).flatten ≠ []) :
    ({ e with encoded_ := stale }).encoded_ = stale ∧
    ((({ e with encoded_ := stale }).encode engine).1).encoded_ =
      (engine.run (sizOf e.frameInfo_) (paramStrings e)
        (stripe_heights e.frameInfo_.height) e.buf_).flatten ∧
    ((({ e with encoded_ := stale }).encode engine).1).encoded_ ≠ [] := by
  refine ⟨rfl, ?_, ?_⟩
  · show (kdu_buffer_target.create.writeAll _).encoded_ = _
    rw [writeAll_encoded]
    rfl
  · show (kdu_buffer_target.create.writeAll _).encoded_ ≠ []
    rw [writeAll_encoded]
    simpa [kdu_buffer_target.create] using h

/-- C2 witness: the amended theorem at the initial state holding a stale
byte, with the concrete engine. -/
theorem encode_resets_and_fills_buffer_witness :
    (socEngine.run (sizOf HTJ2KEncoder.init.frameInfo_)
      (paramStrings HTJ2KEncoder.init)
      (stripe_heights HTJ2KEncoder.init.frameInfo_.height)
      HTJ2KEncoder.init.buf_).flatten ≠ [] ∧
    (({ HTJ2KEncoder.init with encoded_ := [7] }).encoded_ = [7] ∧
     ((({ HTJ2KEncoder.init with encoded_ := [7] }).encode socEngine).1).encoded_ =
       (socEngine.run (sizOf HTJ2KEncoder.init.frameInfo_)
         (paramStrings HTJ2KEncoder.init)
         (stripe_heights HTJ2KEncoder.init.frameInfo_.height)
         HTJ2KEncoder.init.buf_).flatten ∧
     ((({ HTJ2KEncoder.init with encoded_ := [7] }).encode socEngine).1).encoded_ ≠ []) :=
  ⟨by decide,
   encode_resets_and_fills_buffer HTJ2KEncoder.init [7] socEngine (by decide)⟩

/-- C10: `getDecodedBytes` returns the `decoded_` buffer without resizing it
but overwrites the stored frame info; `encode()` never reads `decoded_` —
states differing only in `decoded_` give identical traces and encoded
buffers — and the single stripe push hands the engine exactly the pointer
registered via `setSourceImage`. -/
theorem encode_independent_of_decoded_buffer (e : HTJ2KEncoder) (fi : FrameInfo)
    (engine : Engine) (d1 d2 : List Nat) (src : List Nat) (sz : Nat) :
    (e.getDecodedBytes fi).1.decoded_ = e.decoded_ ∧
    (e.getDecodedBytes fi).2 = e.decoded_ ∧
    (e.getDecodedBytes fi).1.frameInfo_ = fi ∧
    (({ e with decoded_ := d1 }).encode engine).2 =
      (({ e with decoded_ := d2 }).encode engine).2 ∧
    ((({ e with decoded_ := d1 }).encode engine).1).encoded_ =
      ((({ e with decoded_ := d2 }).encode engine).1).encoded_ ∧
    (((e.setSourceImage src sz).encode engine).2).events.filter EngineEvent.isPush =
      [EngineEvent.pushStripe (some src) (stripe_heights e.frameInfo_.height)] :=
  ⟨rfl, rfl, rfl, rfl, rfl, encode_push_events (e.setSourceImage src sz) engine⟩
